import Mathlib

/-!
Shallow embedding of the temporal access profiler in
`charleskorn/query-log-analysis` (Go).

Durations and timestamps are modelled as `Int` values counted in
nanoseconds, exactly as Go's `time.Duration` and `time.Time` differences
are (an `int64` of nanoseconds); none of the quantities handled by the
claims approach `2^63`, so plain `Int` is a faithful model of the
arithmetic. Millisecond values handed to the storage interface are `Int`
milliseconds, as in Prometheus's storage API. The Go program's
`atomic.Int64` counters are modelled as `Int` fields updated by explicit
state passing; the claims only ever increment them by one from zero a
bounded number of times, so 64-bit wraparound is unreachable. A Go `panic`
is modelled as the `Except.error` branch, carrying the offending arguments
and the state at the moment of the panic (the Go panic fires before any
counter is touched, so the carried state is the unmodified one).
-/

/-- Number of nanoseconds in one hour, Go's `time.Hour`, as an `Int`. -/
def nanosPerHour : Int := 3600000000000

/-- Number of nanoseconds in one hour as a `Nat`, used for the loop cursor
`currentBlock`, which is always nonnegative in the source. -/
def hourNat : Nat := 3600000000000

/-- State of the `statistics` struct of `src/main.go`: two corpus-wide
counters and one counter per one-hour block of age. -/
structure statistics where
  queryCount : Int
  selectCount : Int
  blockRangesQueried : List Int
deriving DecidableEq, Repr

/-- Embedding of `newStatistics` (`src/main.go` line 93): 396 one-hour
blocks, all counters zero. -/
def newStatistics : statistics :=
  { queryCount := 0, selectCount := 0, blockRangesQueried := List.replicate 396 0 }

/-- Advance of `currentBlock` at the bottom of the loop body of
`statistics.IncrementBlockRanges` (`src/main.go` lines 118-124): if on a
block boundary move a whole hour, otherwise move to the start of the next
block. -/
def nextBlock (currentBlock : Nat) : Nat :=
  if currentBlock % hourNat = 0 then
    currentBlock + hourNat
  else
    currentBlock + (hourNat - currentBlock % hourNat)

/-- Embedding of `s.blockRangesQueried[i].Add(1)`: bump the counter at
index `i`. -/
def bumpAt (l : List Int) (i : Nat) : List Int := l.set i (l.getD i 0 + 1)

/-- The `for currentBlock < to` loop of `statistics.IncrementBlockRanges`
(`src/main.go` lines 108-125): while the cursor is before `to'`, return if
the block index has passed the end of the configured range, otherwise bump
the current block's counter and advance the cursor to the next block
boundary. -/
def incrementLoop (blocks : List Int) (currentBlock : Nat) (to' : Int) : List Int :=
  if (currentBlock : Int) < to' then
    if _h : blocks.length ≤ currentBlock / hourNat then
      blocks
    else
      incrementLoop (bumpAt blocks (currentBlock / hourNat)) (nextBlock currentBlock) to'
  else
    blocks
termination_by blocks.length - currentBlock / hourNat
decreasing_by
  simp only [bumpAt, List.length_set, nextBlock, hourNat] at *
  split <;> omega

/-- Embedding of `statistics.IncrementBlockRanges` (`src/main.go` lines
99-126). The Go `panic` on `from > to` becomes the error branch, carrying
the offending pair and the (unmodified) state at the moment of the panic.
Otherwise the select counter is bumped and the loop walks the one-hour
blocks from `max(0, from)` to `to`. -/
def statistics.IncrementBlockRanges (s : statistics) (from' to' : Int) :
    Except ((Int × Int) × statistics) statistics :=
  if from' > to' then
    .error ((from', to'), s)
  else
    .ok { s with
          selectCount := s.selectCount + 1,
          blockRangesQueried :=
            incrementLoop s.blockRangesQueried (max 0 from').toNat to' }

/-- Embedding of `statistics.ForBlockRanges` (`src/main.go` lines
128-138) for a callback that never fails: the list of `(start, count)`
pairs handed to the callback, in invocation order. The Go function only
loads each counter, so the statistics value itself is untouched; the
embedding is accordingly a pure read. -/
def statistics.ForBlockRanges (s : statistics) : List (Int × Int) :=
  (List.range s.blockRangesQueried.length).map
    (fun (i : Nat) => ((i : Int) * nanosPerHour, s.blockRangesQueried.getD i 0))

/-- Result-set type returned by the synthetic querier: the source always
returns `storage.EmptySeriesSet()`, so the embedding needs only the empty
variant. -/
inductive SeriesSet where
  | empty
deriving DecidableEq, Repr

/-- Embedding of `int64MillisToTime` (`src/unnamed/part_000` line 28):
milliseconds since the epoch to nanoseconds since the epoch. -/
def int64MillisToTime (i : Int) : Int := i * 1000000

/-- The `queryRangeCollectingQueryable` struct (`src/unnamed/part_000`).
In Go it also holds a pointer to the shared `statistics`; the embedding
passes the statistics state explicitly instead, so only the query's
execution timestamp (nanoseconds since the epoch) remains. -/
structure queryRangeCollectingQueryable where
  queryTimestamp : Int
deriving DecidableEq, Repr

/-- The `queryRangeCollectingQuerier` struct (`src/unnamed/part_000`):
the age interval, "`from'` ago to `to'` ago", for one read session. -/
structure queryRangeCollectingQuerier where
  from' : Int
  to' : Int
deriving DecidableEq, Repr

/-- Embedding of `queryRangeCollectingQueryable.Querier` (`src/unnamed/part_000`
lines 17-26): swap `mint`/`maxt` (milliseconds) into ages relative to the
query's execution timestamp. The Go method always returns a nil error, so
the embedding returns the querier directly. -/
def queryRangeCollectingQueryable.Querier (q : queryRangeCollectingQueryable)
    (mint maxt : Int) : queryRangeCollectingQuerier :=
  { from' := q.queryTimestamp - int64MillisToTime maxt,
    to' := q.queryTimestamp - int64MillisToTime mint }

/-- Embedding of `queryRangeCollectingQuerier.Select` (`src/unnamed/part_000`
lines 40-45): report the session's age interval to the statistics and
return the empty series set. A Go panic inside `IncrementBlockRanges`
propagates as the error branch. -/
def queryRangeCollectingQuerier.Select (q : queryRangeCollectingQuerier)
    (s : statistics) : Except ((Int × Int) × statistics) (statistics × SeriesSet) :=
  (s.IncrementBlockRanges q.from' q.to').map (fun s2 => (s2, SeriesSet.empty))

/-- Embedding of `queryRangeCollectingQuerier.LabelValues`
(`src/unnamed/part_000` lines 47-49): empty values, no warnings, no error.
The error component is an `Option String` that is always `none`. -/
def queryRangeCollectingQuerier.LabelValues (_q : queryRangeCollectingQuerier)
    (_name : String) : List String × Option String := ([], none)

/-- Embedding of `queryRangeCollectingQuerier.LabelNames`
(`src/unnamed/part_000` lines 51-53): empty names, no warnings, no error. -/
def queryRangeCollectingQuerier.LabelNames (_q : queryRangeCollectingQuerier) :
    List String × Option String := ([], none)

/-- Embedding of `queryRangeCollectingQuerier.Close`
(`src/unnamed/part_000` lines 55-58): nothing to do, never an error. -/
def queryRangeCollectingQuerier.Close (_q : queryRangeCollectingQuerier) :
    Option String := none

/-- The `logLine` struct (`src/unnamed/part_001`): a decoded query
descriptor. Times are nanoseconds since the epoch, the step is a duration
in nanoseconds. -/
structure logLine where
  timestamp : Int
  query : String
  isRangeQuery : Bool
  queryTime : Int
  queryStartTime : Int
  queryEndTime : Int
  queryStep : Int
deriving DecidableEq, Repr

/-- Outcome of handing one query to the external promql engine, which the
source consumes as a black box. Either query construction fails
(`engine.NewRangeQuery` / `engine.NewInstantQuery` returns an error, e.g.
for a malformed expression), or execution fails after issuing some
data-selection calls, or execution succeeds after issuing some
data-selection calls. Each data-selection call is the `(mint, maxt)`
millisecond window the engine passes to `Querier`. -/
inductive EvalOutcome where
  | createError (msg : String)
  | execError (selects : List (Int × Int)) (msg : String)
  | success (selects : List (Int × Int))
deriving DecidableEq, Repr

/-- Run the engine's data-selection callbacks in order through the
queryable bound to execution timestamp `T`, threading the statistics
state; a panic in any select propagates. This is the evaluator ↔ adapter
loop of `analyseLogLine` seen from the adapter's side. -/
def applySelects (T : Int) (selects : List (Int × Int)) (s : statistics) :
    Except ((Int × Int) × statistics) statistics :=
  match selects with
  | [] => .ok s
  | w :: rest =>
    ((queryRangeCollectingQueryable.Querier ⟨T⟩ w.1 w.2).Select s).bind
      (fun p => applySelects T rest p.1)

/-- Embedding of `analyseLogLine` (`src/main.go` lines 207-236), with the
external promql engine abstracted as an oracle `engine` mapping the
descriptor to an `EvalOutcome`. The query counter is bumped first,
unconditionally; a construction failure is wrapped as
`"could not create query: "` and an execution failure as
`"query execution failed: "`, exactly as the `fmt.Errorf` calls in the
source do — neither wrap adds the query text. The result pairs the final
statistics with the per-query outcome; the outer `Except` is a panic
escaping a select callback. -/
def analyseLogLine (engine : logLine → EvalOutcome) (l : logLine) (s : statistics) :
    Except ((Int × Int) × statistics) (statistics × Except String Unit) :=
  let s1 := { s with queryCount := s.queryCount + 1 }
  match engine l with
  | .createError msg => .ok (s1, .error ("could not create query: " ++ msg))
  | .execError selects msg =>
    (applySelects l.timestamp selects s1).map
      (fun s2 => (s2, .error ("query execution failed: " ++ msg)))
  | .success selects =>
    (applySelects l.timestamp selects s1).map (fun s2 => (s2, .ok ()))

/-- Conversion from nanoseconds since the epoch to milliseconds since the
epoch as performed by Prometheus's `timestamp.FromTime`
(`t.Unix()*1000 + t.Nanosecond()/1e6`), which floors. -/
def timeToMillis (t : Int) : Int := t / 1000000

/-- The engine's lookback delta in milliseconds: `LookbackDelta: 5 *
time.Minute` in the `promql.EngineOpts` of `src/main.go` lines 191-203. -/
def lookbackDeltaMillis : Int := 300000

/-- Modelled from the spec: the external promql evaluation engine is out
of scope of the source ("the expression parser and evaluator itself
(consumed as a black box)"); for a query that is a single plain vector
selector it issues exactly one data-selection request whose window is the
query's own start/end window padded backwards by the configured lookback
delta ("the lookback padding the evaluator adds"). -/
def simpleSelectorRangeEngine (l : logLine) : EvalOutcome :=
  .success [(timeToMillis l.queryStartTime - lookbackDeltaMillis,
             timeToMillis l.queryEndTime)]

/-- The ranged query descriptor of the concrete scenario in the spec:
execution timestamp `T`, start `T - 47h`, end `T - 46h`, a plain selector
query, 30 second step. -/
def rangedLine (T : Int) : logLine :=
  { timestamp := T,
    query := "metric\x7b\x7d",
    isRangeQuery := true,
    queryTime := 0,
    queryStartTime := T - 47 * nanosPerHour,
    queryEndTime := T - 46 * nanosPerHour,
    queryStep := 30000000000 }

/-- A descriptor whose query text is a malformed expression. -/
def malformedLine : logLine :=
  { timestamp := 1699867200000000000,
    query := "metric\x7b",
    isRangeQuery := false,
    queryTime := 1699867200000000000,
    queryStartTime := 0,
    queryEndTime := 0,
    queryStep := 0 }

/-- Modelled from the promql engine's observed behaviour on the malformed
expression `metric\x7b`: `engine.NewInstantQuery` rejects it with a
position-prefixed parser message that does not repeat the query text. -/
def promqlRejectingEngine (_l : logLine) : EvalOutcome :=
  .createError "1:8: parse error: unexpected end of input inside braces"

/-- Embedding of a whole profiling run's worth of `IncrementForInterval`
calls: fold `statistics.IncrementBlockRanges` over a list of
`(youngerAge, olderAge)` pairs, propagating a panic. -/
def replay (s : statistics) (calls : List (Int × Int)) :
    Except ((Int × Int) × statistics) statistics :=
  match calls with
  | [] => .ok s
  | c :: rest => (s.IncrementBlockRanges c.1 c.2).bind (fun s2 => replay s2 rest)

/-- The half-open intervals `[a, b)` and `[s, e)` have a point in
common. -/
def intervalsIntersect (a b s e : Int) : Prop := max a s < min b e

instance (a b s e : Int) : Decidable (intervalsIntersect a b s e) := by
  unfold intervalsIntersect; infer_instance

/-- Contribution of one valid `IncrementBlockRanges (from', to')` call to
the block counter at index `j` of a histogram with `len` blocks: `1` when
the loop visits block `j`, `0` otherwise. -/
def selectDelta (from' to' : Int) (len j : Nat) : Int :=
  if (from'.toNat : Int) < to' ∧ from'.toNat / hourNat ≤ j ∧ j < len ∧
      (j : Int) * nanosPerHour < to' then 1 else 0

/-- Fuel-indexed version of `incrementLoop`, used to state termination:
`none` means the fuel ran out before the loop finished. -/
def incrementLoopFuel (fuel : Nat) (blocks : List Int) (currentBlock : Nat)
    (to' : Int) : Option (List Int) :=
  match fuel with
  | 0 => none
  | fuel + 1 =>
    if (currentBlock : Int) < to' then
      if blocks.length ≤ currentBlock / hourNat then
        some blocks
      else
        incrementLoopFuel fuel (bumpAt blocks (currentBlock / hourNat))
          (nextBlock currentBlock) to'
    else
      some blocks

/-- Boolean test that `pre` is a prefix of `l`. -/
def seqPrefixOf : List Char → List Char → Bool
  | [], _ => true
  | _ :: _, [] => false
  | a :: as, b :: bs => a = b && seqPrefixOf as bs

/-- Boolean test that `needle` occurs contiguously inside `haystack`. -/
def seqContains (needle : List Char) : List Char → Bool
  | [] => seqPrefixOf needle []
  | h :: t => seqPrefixOf needle (h :: t) || seqContains needle t

/-- String `needle` occurs as a substring of `haystack`; this is how "a
failure carrying the original query text" is read. -/
def substringOf (needle haystack : String) : Bool :=
  seqContains needle.data haystack.data

/-- Total contribution of a sequence of valid `IncrementBlockRanges` calls
to the block counter at index `j` of a histogram with `len` blocks. -/
def contribs (calls : List (Int × Int)) (len j : Nat) : Int :=
  (calls.map (fun p => selectDelta p.1 p.2 len j)).sum

theorem nextBlock_eq (c : Nat) : nextBlock c = (c / hourNat + 1) * hourNat := by
  unfold nextBlock
  simp only [hourNat]
  split <;> omega

theorem nextBlock_div (c : Nat) : nextBlock c / hourNat = c / hourNat + 1 := by
  rw [nextBlock_eq]
  generalize c / hourNat = k
  simp only [hourNat]
  omega

theorem nextBlock_lt (c : Nat) : c < nextBlock c := by
  unfold nextBlock
  simp only [hourNat]
  split <;> omega

theorem bumpAt_getD (l : List Int) (i j : Nat) (hi : i < l.length) :
    (bumpAt l i).getD j 0 = l.getD j 0 + if j = i then 1 else 0 := by
  unfold bumpAt
  by_cases hj : j = i
  · subst hj
    simp [List.getD_eq_getElem?_getD, List.getElem?_set_self hi,
      List.getElem?_eq_getElem hi]
  · simp [List.getD_eq_getElem?_getD, List.getElem?_set_ne (Ne.symm hj), hj]

theorem incrementLoop_length (blocks : List Int) (c : Nat) (to' : Int) :
    (incrementLoop blocks c to').length = blocks.length := by
  induction blocks, c, to' using incrementLoop.induct with
  | case1 blocks c to' h1 h2 =>
    rw [incrementLoop]
    simp [h1, h2]
  | case2 blocks c to' h1 h2 ih =>
    rw [incrementLoop]
    simp only [if_pos h1, dif_neg h2]
    rw [ih]
    simp [bumpAt]
  | case3 blocks c to' h1 =>
    rw [incrementLoop]
    simp [h1]

theorem incrementLoop_getD (blocks : List Int) (c : Nat) (to' : Int) (j : Nat) :
    (incrementLoop blocks c to').getD j 0 =
      blocks.getD j 0 +
        (if (c : Int) < to' ∧ c / hourNat ≤ j ∧ j < blocks.length ∧
            (j : Int) * nanosPerHour < to' then 1 else 0) := by
  induction blocks, c, to' using incrementLoop.induct with
  | case1 blocks c to' h1 h2 =>
    rw [incrementLoop]
    simp only [if_pos h1, dif_pos h2]
    rw [if_neg (by omega)]
    omega
  | case2 blocks c to' h1 h2 ih =>
    rw [incrementLoop]
    simp only [if_pos h1, dif_neg h2]
    rw [ih]
    rw [bumpAt_getD blocks _ j (by omega)]
    simp only [bumpAt, List.length_set, nextBlock_div, nextBlock_eq,
      nanosPerHour, hourNat] at *
    split_ifs <;> omega
  | case3 blocks c to' h1 =>
    rw [incrementLoop]
    simp only [if_neg h1]
    rw [if_neg (by omega)]
    omega

theorem toNat_max_zero (x : Int) : (max 0 x).toNat = x.toNat := by
  rcases le_total 0 x with h | h
  · rw [max_eq_right h]
  · rw [max_eq_left h]
    omega

theorem IncrementBlockRanges_ok (s : statistics) (from' to' : Int) (h : from' ≤ to') :
    s.IncrementBlockRanges from' to' =
      .ok { queryCount := s.queryCount,
            selectCount := s.selectCount + 1,
            blockRangesQueried :=
              incrementLoop s.blockRangesQueried from'.toNat to' } := by
  unfold statistics.IncrementBlockRanges
  rw [if_neg (by omega), toNat_max_zero]

theorem IncrementBlockRanges_getD (s : statistics) (from' to' : Int)
    (h : from' ≤ to') :
    ∃ s2, s.IncrementBlockRanges from' to' = .ok s2 ∧
      s2.queryCount = s.queryCount ∧
      s2.selectCount = s.selectCount + 1 ∧
      s2.blockRangesQueried.length = s.blockRangesQueried.length ∧
      ∀ j : Nat, s2.blockRangesQueried.getD j 0 =
        s.blockRangesQueried.getD j 0 +
          selectDelta from' to' s.blockRangesQueried.length j := by
  refine ⟨_, IncrementBlockRanges_ok s from' to' h, rfl, rfl,
    incrementLoop_length .., fun j => ?_⟩
  rw [incrementLoop_getD]
  rfl

theorem incrementLoop_not_lt (blocks : List Int) (c : Nat) (to' : Int)
    (h : ¬ (c : Int) < to') : incrementLoop blocks c to' = blocks := by
  rw [incrementLoop]
  simp [h]

theorem incrementLoop_past_horizon (blocks : List Int) (c : Nat) (to' : Int)
    (h : blocks.length ≤ c / hourNat) : incrementLoop blocks c to' = blocks := by
  rw [incrementLoop]
  split
  all_goals rfl

theorem newStatistics_length : newStatistics.blockRangesQueried.length = 396 := by
  show (List.replicate 396 (0 : Int)).length = 396
  rw [List.length_replicate]

theorem newStatistics_getD (j : Nat) :
    newStatistics.blockRangesQueried.getD j 0 = 0 := by
  show (List.replicate 396 (0 : Int)).getD j 0 = 0
  rw [List.getD_eq_getElem?_getD, List.getElem?_replicate]
  split <;> rfl

/-- C1: for every pair of durations `from' ≤ to'` with `to'` within the
configured horizon, one call of `IncrementBlockRanges` increments by
exactly one the counter of every configured one-hour bucket whose
half-open interval intersects `[max 0 from', to')`, changes no other
bucket counter or the query counter, and increments the corpus-wide
selection counter by exactly one. -/
theorem incrementForInterval_hits_intersecting_buckets_once
    (s : statistics) (from' to' : Int)
    (hlen : s.blockRangesQueried.length = 396)
    (h1 : from' ≤ to') (h2 : to' ≤ 396 * nanosPerHour) :
    ∃ s2, s.IncrementBlockRanges from' to' = .ok s2 ∧
      s2.selectCount = s.selectCount + 1 ∧
      s2.queryCount = s.queryCount ∧
      s2.blockRangesQueried.length = 396 ∧
      ∀ i : Nat, i < 396 →
        s2.blockRangesQueried.getD i 0 =
          s.blockRangesQueried.getD i 0 +
            (if intervalsIntersect (max 0 from') to'
                ((i : Int) * nanosPerHour) (((i : Int) + 1) * nanosPerHour)
             then 1 else 0) := by
  obtain ⟨s2, heq, hq, hsel, hl, hget⟩ := IncrementBlockRanges_getD s from' to' h1
  refine ⟨s2, heq, hsel, hq, hl.trans hlen, fun i hi => ?_⟩
  rw [hget i, hlen]
  congr 1
  have hiff : ((from'.toNat : Int) < to' ∧ from'.toNat / hourNat ≤ i ∧ i < 396 ∧
      (i : Int) * nanosPerHour < to') ↔
      intervalsIntersect (max 0 from') to' ((i : Int) * nanosPerHour)
        (((i : Int) + 1) * nanosPerHour) := by
    simp only [intervalsIntersect, max_lt_iff, lt_min_iff, nanosPerHour, hourNat]
    omega
  unfold selectDelta
  exact if_congr hiff rfl rfl

/-- Witness for C1 at the spec's uniform-bucket scenario
`IncrementForInterval(0, 2h)` on a fresh histogram. -/
theorem incrementForInterval_hits_intersecting_buckets_once_witness :
    ∃ s2, newStatistics.IncrementBlockRanges 0 (2 * nanosPerHour) = .ok s2 ∧
      s2.selectCount = newStatistics.selectCount + 1 ∧
      s2.queryCount = newStatistics.queryCount ∧
      s2.blockRangesQueried.length = 396 ∧
      ∀ i : Nat, i < 396 →
        s2.blockRangesQueried.getD i 0 =
          newStatistics.blockRangesQueried.getD i 0 +
            (if intervalsIntersect (max 0 0) (2 * nanosPerHour)
                ((i : Int) * nanosPerHour) (((i : Int) + 1) * nanosPerHour)
             then 1 else 0) :=
  incrementForInterval_hits_intersecting_buckets_once newStatistics 0
    (2 * nanosPerHour) newStatistics_length (by norm_num [nanosPerHour])
    (by norm_num [nanosPerHour])

/-- C2: for `from' > to'` the call panics (modelled as the error branch
carrying the offending pair) and the statistics state carried out is the
unmodified input state: no bucket counter, the selection counter and the
query counter are all unchanged. -/
theorem incrementForInterval_contract_violation_panics
    (s : statistics) (from' to' : Int) (h : from' > to') :
    s.IncrementBlockRanges from' to' = .error ((from', to'), s) := by
  unfold statistics.IncrementBlockRanges
  rw [if_pos h]

/-- Witness for C2 at `from' = 1h`, `to' = 0`. -/
theorem incrementForInterval_contract_violation_panics_witness :
    newStatistics.IncrementBlockRanges nanosPerHour 0 =
      .error ((nanosPerHour, 0), newStatistics) :=
  incrementForInterval_contract_violation_panics newStatistics nanosPerHour 0
    (by norm_num [nanosPerHour])

/-- C5: for a valid call with `to' ≤ 0` (the whole window in the query's
future) no bucket counter changes and the query counter is unchanged, but
the selection counter still increments by exactly one. -/
theorem incrementForInterval_future_window_counts_select_only
    (s : statistics) (from' to' : Int) (h1 : from' ≤ to') (h2 : to' ≤ 0) :
    s.IncrementBlockRanges from' to' =
      .ok { s with selectCount := s.selectCount + 1 } := by
  rw [IncrementBlockRanges_ok s from' to' h1,
    incrementLoop_not_lt s.blockRangesQueried from'.toNat to'
      (by omega)]

/-- Witness for C5 at the test's future window `(-1h, -10min)`. -/
theorem incrementForInterval_future_window_counts_select_only_witness :
    newStatistics.IncrementBlockRanges (-3600000000000) (-600000000000) =
      .ok { newStatistics with selectCount := newStatistics.selectCount + 1 } :=
  incrementForInterval_future_window_counts_select_only newStatistics
    (-3600000000000) (-600000000000) (by norm_num) (by norm_num)

/-- C6: for a valid call whose start lies at or beyond the 396-hour
horizon, no bucket counter changes and the query counter is unchanged,
but the selection counter still increments by exactly one; the
out-of-horizon request is dropped without error. -/
theorem incrementForInterval_beyond_horizon_counts_select_only
    (s : statistics) (from' to' : Int)
    (hlen : s.blockRangesQueried.length = 396)
    (h1 : from' ≤ to') (h2 : 396 * nanosPerHour ≤ from') :
    s.IncrementBlockRanges from' to' =
      .ok { s with selectCount := s.selectCount + 1 } := by
  rw [IncrementBlockRanges_ok s from' to' h1,
    incrementLoop_past_horizon _ _ _ ?_]
  rw [hlen]
  simp only [nanosPerHour, hourNat] at h2 ⊢
  omega

/-- Witness for C6 at the test's beyond-horizon window
`(360 days, 370 days)` shifted fully past the horizon: `(400h, 500h)`. -/
theorem incrementForInterval_beyond_horizon_counts_select_only_witness :
    newStatistics.IncrementBlockRanges (400 * nanosPerHour) (500 * nanosPerHour) =
      .ok { newStatistics with selectCount := newStatistics.selectCount + 1 } :=
  incrementForInterval_beyond_horizon_counts_select_only newStatistics
    (400 * nanosPerHour) (500 * nanosPerHour) newStatistics_length
    (by norm_num [nanosPerHour]) (by norm_num [nanosPerHour])

theorem newStatistics_queryCount : newStatistics.queryCount = 0 := rfl

theorem newStatistics_selectCount : newStatistics.selectCount = 0 := rfl

theorem replay_ok (s : statistics) (calls : List (Int × Int))
    (hv : ∀ p ∈ calls, p.1 ≤ p.2) :
    ∃ s2, replay s calls = .ok s2 ∧
      s2.queryCount = s.queryCount ∧
      s2.selectCount = s.selectCount + calls.length ∧
      s2.blockRangesQueried.length = s.blockRangesQueried.length ∧
      ∀ j : Nat, s2.blockRangesQueried.getD j 0 =
        s.blockRangesQueried.getD j 0 +
          contribs calls s.blockRangesQueried.length j := by
  induction calls generalizing s with
  | nil =>
    exact ⟨s, rfl, rfl, by simp, rfl, by simp [contribs]⟩
  | cons c rest ih =>
    obtain ⟨s1, h1, hq1, hs1, hl1, hg1⟩ :=
      IncrementBlockRanges_getD s c.1 c.2 (hv c (by simp))
    obtain ⟨s2, h2, hq2, hs2, hl2, hg2⟩ :=
      ih s1 (fun p hp => hv p (by simp [hp]))
    refine ⟨s2, ?_, ?_, ?_, ?_, fun j => ?_⟩
    · rw [replay, h1]
      exact h2
    · rw [hq2, hq1]
    · rw [hs2, hs1]
      simp only [List.length_cons]
      push_cast
      ring
    · rw [hl2, hl1]
    · rw [hg2 j, hg1 j, hl1]
      simp only [contribs, List.map_cons, List.sum_cons]
      ring

/-- C8: replaying the same sequence of valid `(youngerAge, olderAge)`
calls twice against a freshly constructed histogram produces exactly
double every counter, bucket counters and selection counter alike,
compared to replaying it once. -/
theorem replay_twice_doubles_every_counter (calls : List (Int × Int))
    (hv : ∀ p ∈ calls, p.1 ≤ p.2) :
    ∃ s1 s2, replay newStatistics calls = .ok s1 ∧
      replay newStatistics (calls ++ calls) = .ok s2 ∧
      s2.queryCount = 2 * s1.queryCount ∧
      s2.selectCount = 2 * s1.selectCount ∧
      s2.blockRangesQueried.length = s1.blockRangesQueried.length ∧
      ∀ j : Nat, s2.blockRangesQueried.getD j 0 =
        2 * s1.blockRangesQueried.getD j 0 := by
  obtain ⟨s1, h1, hq1, hs1, hl1, hg1⟩ := replay_ok newStatistics calls hv
  obtain ⟨s2, h2, hq2, hs2, hl2, hg2⟩ :=
    replay_ok newStatistics (calls ++ calls)
      (fun p hp => hv p (by rcases List.mem_append.mp hp with h | h <;> exact h))
  refine ⟨s1, s2, h1, h2, ?_, ?_, ?_, fun j => ?_⟩
  · rw [hq2, hq1, newStatistics_queryCount]
    norm_num
  · rw [hs2, hs1, newStatistics_selectCount]
    simp only [List.length_append]
    push_cast
    ring
  · rw [hl2, hl1]
  · rw [hg2 j, hg1 j, newStatistics_getD j]
    simp only [contribs, List.map_append, List.sum_append]
    ring

/-- Witness for C8 at the two-call sequence of the spec's uniform
scenario: `(0, 2h)` then `(1h, 2h)`. -/
theorem replay_twice_doubles_every_counter_witness :
    ∃ s1 s2,
      replay newStatistics [(0, 2 * nanosPerHour), (nanosPerHour, 2 * nanosPerHour)] =
        .ok s1 ∧
      replay newStatistics
          ([(0, 2 * nanosPerHour), (nanosPerHour, 2 * nanosPerHour)] ++
            [(0, 2 * nanosPerHour), (nanosPerHour, 2 * nanosPerHour)]) = .ok s2 ∧
      s2.queryCount = 2 * s1.queryCount ∧
      s2.selectCount = 2 * s1.selectCount ∧
      s2.blockRangesQueried.length = s1.blockRangesQueried.length ∧
      ∀ j : Nat, s2.blockRangesQueried.getD j 0 =
        2 * s1.blockRangesQueried.getD j 0 :=
  replay_twice_doubles_every_counter
    [(0, 2 * nanosPerHour), (nanosPerHour, 2 * nanosPerHour)]
    (by decide)

/-- C9: every histogram built by `newStatistics` has exactly 396 bucket
counters, `IncrementBlockRanges` never changes the number of buckets, and
`ForBlockRanges` hands its callback exactly 396 pairs in ascending order
with start ages `0h, 1h, ..., 395h`, reading the counters without
modifying them (the embedding of `ForBlockRanges` is a pure read). -/
theorem histogram_has_fixed_hourly_bucket_shape :
    newStatistics.blockRangesQueried.length = 396 ∧
    (∀ (s : statistics) (from' to' : Int) (s2 : statistics),
        s.IncrementBlockRanges from' to' = .ok s2 →
        s2.blockRangesQueried.length = s.blockRangesQueried.length) ∧
    (∀ s : statistics, s.blockRangesQueried.length = 396 →
        s.ForBlockRanges.length = 396 ∧
        s.ForBlockRanges.map Prod.fst =
          (List.range 396).map (fun (i : Nat) => (i : Int) * nanosPerHour) ∧
        ∀ i : Nat, i < 396 →
          s.ForBlockRanges.getD i (0, 0) =
            ((i : Int) * nanosPerHour, s.blockRangesQueried.getD i 0)) := by
  refine ⟨newStatistics_length, ?_, ?_⟩
  · intro s from' to' s2 h
    unfold statistics.IncrementBlockRanges at h
    split at h
    · cases h
    · simp only [Except.ok.injEq] at h
      subst h
      exact incrementLoop_length _ _ _
  · intro s hlen
    refine ⟨?_, ?_, ?_⟩
    · simp [statistics.ForBlockRanges, hlen]
    · simp [statistics.ForBlockRanges, hlen, List.map_map, Function.comp]
    · intro i hi
      simp [statistics.ForBlockRanges, hlen, List.getD_eq_getElem?_getD,
        List.getElem?_range, hi]

/-- Witness for C9: the shape facts evaluated on a fresh histogram, with
the per-index fact taken at index 5. -/
theorem histogram_has_fixed_hourly_bucket_shape_witness :
    newStatistics.blockRangesQueried.length = 396 ∧
    newStatistics.ForBlockRanges.length = 396 ∧
    newStatistics.ForBlockRanges.getD 5 (0, 0) =
      (((5 : Nat) : Int) * nanosPerHour, newStatistics.blockRangesQueried.getD 5 0) :=
  ⟨histogram_has_fixed_hourly_bucket_shape.1,
    (histogram_has_fixed_hourly_bucket_shape.2.2 newStatistics newStatistics_length).1,
    (histogram_has_fixed_hourly_bucket_shape.2.2 newStatistics
      newStatistics_length).2.2 5 (by norm_num)⟩

theorem incrementLoopFuel_sound (fuel : Nat) :
    ∀ (blocks : List Int) (c : Nat) (to' : Int),
      blocks.length - c / hourNat < fuel →
      incrementLoopFuel fuel blocks c to' = some (incrementLoop blocks c to') := by
  induction fuel with
  | zero =>
    intro blocks c to' h
    omega
  | succ n ih =>
    intro blocks c to' h
    by_cases h1 : (c : Int) < to'
    · by_cases hb : blocks.length ≤ c / hourNat
      · rw [incrementLoopFuel, incrementLoop, if_pos h1, if_pos h1, if_pos hb,
          dif_pos hb]
      · rw [incrementLoopFuel, incrementLoop, if_pos h1, if_pos h1, if_neg hb,
          dif_neg hb]
        apply ih
        simp only [bumpAt, List.length_set, nextBlock_div]
        omega
    · rw [incrementLoopFuel, incrementLoop, if_neg h1, if_neg h1]

/-- C10: for every valid pair the bucket loop of `IncrementBlockRanges`
terminates: 397 iterations always suffice (each iteration strictly
advances the cursor to the next one-hour block boundary, raising the block
index by exactly one, or returns at the 396-bucket horizon). -/
theorem incrementBlockRanges_terminates :
    (∀ (blocks : List Int) (c : Nat) (to' : Int),
        incrementLoopFuel (blocks.length + 1) blocks c to' =
          some (incrementLoop blocks c to')) ∧
    (∀ c : Nat, c < nextBlock c ∧ nextBlock c / hourNat = c / hourNat + 1) ∧
    (∀ (s : statistics) (from' to' : Int),
        from' ≤ to' → s.blockRangesQueried.length = 396 →
        ∃ s2, s.IncrementBlockRanges from' to' = .ok s2 ∧
          incrementLoopFuel 397 s.blockRangesQueried (max 0 from').toNat to' =
            some s2.blockRangesQueried) := by
  refine ⟨fun blocks c to' =>
      incrementLoopFuel_sound _ blocks c to' (by simp only [hourNat]; omega),
    fun c => ⟨nextBlock_lt c, nextBlock_div c⟩, fun s from' to' h hlen => ?_⟩
  refine ⟨_, IncrementBlockRanges_ok s from' to' h, ?_⟩
  rw [toNat_max_zero,
    incrementLoopFuel_sound 397 _ _ _ (by rw [hlen]; simp only [hourNat]; omega)]

/-- Witness for C10 at a fresh histogram and the window `(0, 1h)`. -/
theorem incrementBlockRanges_terminates_witness :
    ∃ s2, newStatistics.IncrementBlockRanges 0 nanosPerHour = .ok s2 ∧
      incrementLoopFuel 397 newStatistics.blockRangesQueried
        (max 0 (0 : Int)).toNat nanosPerHour = some s2.blockRangesQueried :=
  incrementBlockRanges_terminates.2.2 newStatistics 0 nanosPerHour
    (by norm_num [nanosPerHour]) newStatistics_length

/-- C3 (amended): for every query descriptor the evaluator rejects at
query creation, `analyseLogLine` still increments the corpus-wide query
counter by exactly one, changes no bucket counter and not the selection
counter, returns the failure `"could not create query: "` wrapping the
evaluator's message — which does not carry the original query text — and
does not retry; for descriptors failing during execution it likewise
increments the query counter by one and returns a
`"query execution failed: "` wrapper, with exactly the data selections
issued before the failure accounted. -/
theorem analyseLogLine_failure_counts_query_only :
    (∀ (engine : logLine → EvalOutcome) (l : logLine) (s : statistics)
        (msg : String),
        engine l = .createError msg →
        analyseLogLine engine l s =
          .ok ({ s with queryCount := s.queryCount + 1 },
            .error ("could not create query: " ++ msg))) ∧
    (∀ (engine : logLine → EvalOutcome) (l : logLine) (s : statistics)
        (selects : List (Int × Int)) (msg : String),
        engine l = .execError selects msg →
        analyseLogLine engine l s =
          (applySelects l.timestamp selects
              { s with queryCount := s.queryCount + 1 }).map
            (fun s2 => (s2, .error ("query execution failed: " ++ msg)))) := by
  constructor
  · intro engine l s msg h
    simp only [analyseLogLine, h]
  · intro engine l s selects msg h
    simp only [analyseLogLine, h]

/-- Counterexample for C3 as stated: on the malformed query `metric{`
the returned failure does not carry the original query text — the error
string is the fixed stage prefix plus the evaluator's position-prefixed
message, and the query text is not a substring of it. -/
theorem analyseLogLine_failure_lacks_query_text :
    analyseLogLine promqlRejectingEngine malformedLine newStatistics =
      .ok ({ newStatistics with queryCount := newStatistics.queryCount + 1 },
        .error "could not create query: 1:8: parse error: unexpected end of input inside braces") ∧
    substringOf malformedLine.query
      "could not create query: 1:8: parse error: unexpected end of input inside braces" =
      false := by
  exact ⟨rfl, rfl⟩

/-- Witness for C3 on the malformed-query descriptor. -/
theorem analyseLogLine_failure_counts_query_only_witness :
    analyseLogLine promqlRejectingEngine malformedLine newStatistics =
      .ok ({ newStatistics with queryCount := newStatistics.queryCount + 1 },
        .error ("could not create query: " ++
          "1:8: parse error: unexpected end of input inside braces")) :=
  analyseLogLine_failure_counts_query_only.1 promqlRejectingEngine malformedLine
    newStatistics "1:8: parse error: unexpected end of input inside braces" rfl

/-- C4: the read session the adapter opens for the absolute window
`[mint, maxt]` on behalf of a query executed at `T` carries exactly the
ages `from' = T - maxt` and `to' = T - mint`; its data-selection callback
calls `IncrementBlockRanges` exactly once with that pair and returns the
always-empty series set with no error (on success the selection counter
rises by exactly one); label-name and label-value enumeration return
empty with no error, and closing the session always succeeds. -/
theorem synthetic_adapter_reports_window_as_ages :
    ∀ (T mint maxt : Int) (s : statistics),
      ((queryRangeCollectingQueryable.Querier ⟨T⟩ mint maxt).from' =
          T - maxt * 1000000) ∧
      ((queryRangeCollectingQueryable.Querier ⟨T⟩ mint maxt).to' =
          T - mint * 1000000) ∧
      ((queryRangeCollectingQueryable.Querier ⟨T⟩ mint maxt).Select s =
          (s.IncrementBlockRanges (T - maxt * 1000000) (T - mint * 1000000)).map
            (fun s2 => (s2, SeriesSet.empty))) ∧
      (∀ (s2 : statistics) (ss : SeriesSet),
          (queryRangeCollectingQueryable.Querier ⟨T⟩ mint maxt).Select s =
            .ok (s2, ss) →
          ss = SeriesSet.empty ∧ s2.selectCount = s.selectCount + 1 ∧
            s2.queryCount = s.queryCount) ∧
      (∀ name : String,
          (queryRangeCollectingQueryable.Querier ⟨T⟩ mint maxt).LabelValues name =
            ([], none)) ∧
      ((queryRangeCollectingQueryable.Querier ⟨T⟩ mint maxt).LabelNames =
          ([], none)) ∧
      ((queryRangeCollectingQueryable.Querier ⟨T⟩ mint maxt).Close = none) := by
  intro T mint maxt s
  refine ⟨rfl, rfl, rfl, ?_, fun _ => rfl, rfl, rfl⟩
  intro s2 ss h
  unfold queryRangeCollectingQuerier.Select statistics.IncrementBlockRanges at h
  split at h
  · simp [Except.map] at h
  · simp only [Except.map, Except.ok.injEq, Prod.mk.injEq] at h
    obtain ⟨h1, h2⟩ := h
    subst h1
    cases ss
    exact ⟨rfl, rfl, rfl⟩

/-- Witness for C4 at `T = 5`, `mint = 2`, `maxt = 3` on a fresh
histogram. -/
theorem synthetic_adapter_reports_window_as_ages_witness :
    ((queryRangeCollectingQueryable.Querier ⟨5⟩ 2 3).from' = 5 - 3 * 1000000) ∧
    ((queryRangeCollectingQueryable.Querier ⟨5⟩ 2 3).to' = 5 - 2 * 1000000) ∧
    ((queryRangeCollectingQueryable.Querier ⟨5⟩ 2 3).LabelValues "x" =
      ([], none)) ∧
    ((queryRangeCollectingQueryable.Querier ⟨5⟩ 2 3).Close = none) :=
  ⟨(synthetic_adapter_reports_window_as_ages 5 2 3 newStatistics).1,
    (synthetic_adapter_reports_window_as_ages 5 2 3 newStatistics).2.1,
    (synthetic_adapter_reports_window_as_ages 5 2 3 newStatistics).2.2.2.2.1 "x",
    (synthetic_adapter_reports_window_as_ages 5 2 3 newStatistics).2.2.2.2.2.2⟩

/-- C7 (with the evaluator modelled from the spec as issuing one
selection padded backwards by the 5-minute lookback delta configured in
`src/main.go`): replaying a ranged descriptor with execution timestamp
`T`, start `T - 47h`, end `T - 46h` leaves bucket 46 and bucket 47 at one
— the lookback padding registers in the adjacent older bucket — and every
bucket at or past 49 hours at zero. -/
theorem ranged_query_47h_to_46h_hits_buckets_46_and_47 (T : Int) :
    ∃ s2, analyseLogLine simpleSelectorRangeEngine (rangedLine T) newStatistics =
        .ok (s2, .ok ()) ∧
      s2.blockRangesQueried.getD 46 0 = 1 ∧
      s2.blockRangesQueried.getD 47 0 = 1 ∧
      ∀ j : Nat, 49 ≤ j → s2.blockRangesQueried.getD j 0 = 0 := by
  have hAB : (T - timeToMillis (T - 46 * nanosPerHour) * 1000000) ≤
      (T - (timeToMillis (T - 47 * nanosPerHour) - lookbackDeltaMillis) * 1000000) := by
    simp only [timeToMillis, lookbackDeltaMillis, nanosPerHour]
    omega
  obtain ⟨s2, hok, hq, hsel, hlen, hget⟩ :=
    IncrementBlockRanges_getD
      { newStatistics with queryCount := newStatistics.queryCount + 1 }
      (T - timeToMillis (T - 46 * nanosPerHour) * 1000000)
      (T - (timeToMillis (T - 47 * nanosPerHour) - lookbackDeltaMillis) * 1000000)
      hAB
  have hb : ({ newStatistics with queryCount := newStatistics.queryCount + 1 } :
      statistics).blockRangesQueried = newStatistics.blockRangesQueried := rfl
  rw [hb] at hlen hget
  refine ⟨s2, ?_, ?_, ?_, ?_⟩
  · simp only [analyseLogLine, simpleSelectorRangeEngine, applySelects,
      queryRangeCollectingQuerier.Select, queryRangeCollectingQueryable.Querier,
      int64MillisToTime, rangedLine]
    rw [hok]
    rfl
  · rw [hget 46, newStatistics_getD 46, newStatistics_length]
    simp only [selectDelta, timeToMillis, lookbackDeltaMillis, nanosPerHour, hourNat]
    split
    · norm_num
    · exfalso
      omega
  · rw [hget 47, newStatistics_getD 47, newStatistics_length]
    simp only [selectDelta, timeToMillis, lookbackDeltaMillis, nanosPerHour, hourNat]
    split
    · norm_num
    · exfalso
      omega
  · intro j hj
    rw [hget j, newStatistics_getD j, newStatistics_length]
    simp only [selectDelta, timeToMillis, lookbackDeltaMillis, nanosPerHour, hourNat]
    split
    · exfalso
      omega
    · norm_num
